import Mathlib

/-!
Shallow embedding of `src/amm_contract.py` (class `YieldBasisAMM` and its
dataclasses).  Python `Decimal` values are modelled as exact rationals `ℚ`;
the source sets `getcontext().prec = 28` and all quantities the verified
claims touch stay well inside that precision, so exact rational arithmetic
is the intended semantics of the reference arithmetic layer.

Mutating methods of the Python class are modelled as functions
`YieldBasisAMM → args → YieldBasisAMM × Except AmmErr α`: the returned pool
is the state of `self` when the method returns or raises.  This captures
Python's in-place mutation faithfully: a method that mutates fields and
*then* raises leaves the mutated state behind, and the embedding returns
exactly that mutated state paired with the error.

The Python `ValueError` raise sites are represented by the constructors of
`AmmErr`; each constructor corresponds to one distinct raise message of the
source (listed at the inductive).
-/

namespace Kupera

/-- Pool state dataclass `PoolState` of `src/amm_contract.py`. -/
structure PoolState where
  lbtc_reserve : ℚ
  lusdt_reserve : ℚ
  debt_amount : ℚ
  btc_price : ℚ
  lp_supply : ℚ
  yb_supply : ℚ
deriving DecidableEq

namespace PoolState

/-- Property `pool_value_usd`: `(lbtc_reserve * btc_price) + lusdt_reserve`. -/
def pool_value_usd (s : PoolState) : ℚ :=
  s.lbtc_reserve * s.btc_price + s.lusdt_reserve

/-- Property `debt_ratio`: `debt_amount / pool_value_usd`, `0` when the pool
value is `0`. -/
def debt_ratio (s : PoolState) : ℚ :=
  if s.pool_value_usd = 0 then 0 else s.debt_amount / s.pool_value_usd

/-- Property `is_healthy`: the covenant safety band check
`0.0625 <= debt_ratio <= 0.53125`. -/
def is_healthy (s : PoolState) : Bool :=
  decide ((0.0625 : ℚ) ≤ s.debt_ratio ∧ s.debt_ratio ≤ (0.53125 : ℚ))

end PoolState

/-- Dataclass `FlashLoanTerms` of `src/amm_contract.py`. -/
structure FlashLoanTerms where
  loan_id : String
  borrow_asset : String
  borrow_amount : ℚ
  repay_amount : ℚ
  repay_asset : String
  fee_amount : ℚ
  purpose : String
deriving DecidableEq

/-- Dataclass `ArbitrageOpportunity` of `src/amm_contract.py`. -/
structure ArbitrageOpportunity where
  action : String
  current_ratio : ℚ
  target_ratio : ℚ
  debt_adjustment : ℚ
  expected_profit : ℚ
  method : String
deriving DecidableEq

/-- Dataclass `SwapQuote` of `src/amm_contract.py`. -/
structure SwapQuote where
  input_asset : String
  output_asset : String
  amount_in : ℚ
  amount_out : ℚ
  fee_paid : ℚ
  price_after : ℚ
  new_state : PoolState
deriving DecidableEq

/-- Error kinds of `YieldBasisAMM`.  Every constructor is one distinct
`ValueError` raise site of the source:
`invalidAmount` = "Amount must be positive" / "BTC amount must be positive",
`unknownAsset`  = "Unknown asset: ...",
`emptyPool`     = "Pool has zero reserves",
`zeroOutput`    = "Output amount would be zero",
`insufficientUsdt` = "Insufficient USDT to remove",
`unknownAction` = "Unknown action: ...",
`covenantViolation` = "Deposit violates covenant" / "Rebalancing violates covenant",
`unknownLoan`   = "Unknown loan: ...",
`insufficientRepayment` = "Insufficient repayment: ...". -/
inductive AmmErr where
  | invalidAmount
  | unknownAsset (asset : String)
  | emptyPool
  | zeroOutput
  | insufficientUsdt
  | unknownAction (action : String)
  | covenantViolation
  | unknownLoan (loan_id : String)
  | insufficientRepayment
deriving DecidableEq

/-- Mutable state of class `YieldBasisAMM`.  The `reserves` convenience dict
of the source is an always-synced mirror of `lbtc_reserve` / `lusdt_reserve`
and is therefore not duplicated here; `accumulated_fees` is the two-key dict
split into its two entries; `yb_holders` and `active_loans` dicts are maps.
Invariant from `prepare_flashloan`: every stored loan's `borrow_asset` is
one of the two pool assets. -/
structure YieldBasisAMM where
  swap_fee : ℚ
  flash_fee : ℚ
  lbtc_reserve : ℚ
  lusdt_reserve : ℚ
  debt_amount : ℚ
  btc_price : ℚ
  lp_supply : ℚ
  yb_supply : ℚ
  yb_holders : String → ℚ
  accumulated_fees_lbtc : ℚ
  accumulated_fees_lusdt : ℚ
  active_loans : String → Option FlashLoanTerms

/-- Method `get_state`. -/
def get_state (amm : YieldBasisAMM) : PoolState :=
  { lbtc_reserve := amm.lbtc_reserve
    lusdt_reserve := amm.lusdt_reserve
    debt_amount := amm.debt_amount
    btc_price := amm.btc_price
    lp_supply := amm.lp_supply
    yb_supply := amm.yb_supply }

/-- Method `invariant`: the constant product `k = x * y`. -/
def invariant (amm : YieldBasisAMM) : ℚ :=
  amm.lbtc_reserve * amm.lusdt_reserve

/-- Method `price`: `lusdt_reserve / lbtc_reserve`, `0` on an empty BTC side. -/
def price (amm : YieldBasisAMM) : ℚ :=
  if amm.lbtc_reserve = 0 then 0 else amm.lusdt_reserve / amm.lbtc_reserve

/-- Local `reserve_in` of `quote_swap` (asset-dispatched input reserve). -/
def reserve_in (amm : YieldBasisAMM) (asset : String) : ℚ :=
  if asset = "LBTC" then amm.lbtc_reserve else amm.lusdt_reserve

/-- Local `reserve_out` of `quote_swap` (asset-dispatched output reserve). -/
def reserve_out (amm : YieldBasisAMM) (asset : String) : ℚ :=
  if asset = "LBTC" then amm.lusdt_reserve else amm.lbtc_reserve

/-- Local `output_asset` of `quote_swap`. -/
def other_asset (asset : String) : String :=
  if asset = "LBTC" then "LUSDt" else "LBTC"

/-- Local `amount_in_after_fee` of `quote_swap`: `amount_in * (1 - swap_fee)`. -/
def amount_in_after_fee (amm : YieldBasisAMM) (amount_in : ℚ) : ℚ :=
  amount_in * (1 - amm.swap_fee)

/-- Local `amount_out` of `quote_swap`:
`reserve_out * amount_in_after_fee / (reserve_in + amount_in_after_fee)`. -/
def swap_amount_out (amm : YieldBasisAMM) (asset : String) (amount_in : ℚ) : ℚ :=
  reserve_out amm asset * amount_in_after_fee amm amount_in /
    (reserve_in amm asset + amount_in_after_fee amm amount_in)

/-- Local `new_lbtc` of `quote_swap`. -/
def swap_new_lbtc (amm : YieldBasisAMM) (asset : String) (amount_in : ℚ) : ℚ :=
  if asset = "LBTC" then amm.lbtc_reserve + amount_in
  else amm.lbtc_reserve - swap_amount_out amm asset amount_in

/-- Local `new_lusdt` of `quote_swap`. -/
def swap_new_lusdt (amm : YieldBasisAMM) (asset : String) (amount_in : ℚ) : ℚ :=
  if asset = "LBTC" then amm.lusdt_reserve - swap_amount_out amm asset amount_in
  else amm.lusdt_reserve + amount_in

/-- Local `new_price` of `quote_swap`: `new_lusdt / new_lbtc` guarded by
`new_lbtc > 0`. -/
def swap_new_price (amm : YieldBasisAMM) (asset : String) (amount_in : ℚ) : ℚ :=
  if 0 < swap_new_lbtc amm asset amount_in then
    swap_new_lusdt amm asset amount_in / swap_new_lbtc amm asset amount_in
  else 0

/-- The `SwapQuote` value built at the end of `quote_swap`. -/
def mk_swap_quote (amm : YieldBasisAMM) (asset : String) (amount_in : ℚ) : SwapQuote :=
  { input_asset := asset
    output_asset := other_asset asset
    amount_in := amount_in
    amount_out := swap_amount_out amm asset amount_in
    fee_paid := amount_in * amm.swap_fee
    price_after := swap_new_price amm asset amount_in
    new_state :=
      { lbtc_reserve := swap_new_lbtc amm asset amount_in
        lusdt_reserve := swap_new_lusdt amm asset amount_in
        debt_amount := amm.debt_amount
        btc_price := amm.btc_price
        lp_supply := amm.lp_supply
        yb_supply := amm.yb_supply } }

/-- Method `quote_swap`.  Pure in the source (reads `self`, never writes),
hence a plain function here.  Check order mirrors the source: amount sign,
asset dispatch, reserve emptiness, zero output. -/
def quote_swap (amm : YieldBasisAMM) (input_asset : String) (amount_in : ℚ) :
    Except AmmErr SwapQuote :=
  if amount_in ≤ 0 then Except.error AmmErr.invalidAmount
  else if input_asset = "LBTC" ∨ input_asset = "LUSDt" then
    if reserve_in amm input_asset ≤ 0 ∨ reserve_out amm input_asset ≤ 0 then
      Except.error AmmErr.emptyPool
    else if swap_amount_out amm input_asset amount_in ≤ 0 then
      Except.error AmmErr.zeroOutput
    else Except.ok (mk_swap_quote amm input_asset amount_in)
  else Except.error (AmmErr.unknownAsset input_asset)

/-- Method `execute_swap`: quote, then apply reserve deltas and fee accrual
to `self`.  On a quote error the pool is untouched. -/
def execute_swap (amm : YieldBasisAMM) (input_asset : String) (amount_in : ℚ) :
    YieldBasisAMM × Except AmmErr SwapQuote :=
  match quote_swap amm input_asset amount_in with
  | Except.error e => (amm, Except.error e)
  | Except.ok quote =>
    if input_asset = "LBTC" then
      ({ amm with
          lbtc_reserve := amm.lbtc_reserve + quote.amount_in
          lusdt_reserve := amm.lusdt_reserve - quote.amount_out
          accumulated_fees_lbtc := amm.accumulated_fees_lbtc + quote.fee_paid },
       Except.ok quote)
    else
      ({ amm with
          lusdt_reserve := amm.lusdt_reserve + quote.amount_in
          lbtc_reserve := amm.lbtc_reserve - quote.amount_out
          accumulated_fees_lusdt := amm.accumulated_fees_lusdt + quote.fee_paid },
       Except.ok quote)

/-- Method `deposit_btc_for_yb`.  The source mutates reserves, debt, ybBTC
supply and holder balances, and only afterwards checks `is_healthy`; on a
violation it raises with the mutations left in place, which the returned
pool reproduces.  `deposit_applied` is the mutation block (source lines
306-322), `deposit_btc_for_yb` the whole method. -/
def deposit_applied (amm : YieldBasisAMM) (btc_amount : ℚ) (depositor : String) :
    YieldBasisAMM :=
  { amm with
      lbtc_reserve := amm.lbtc_reserve + btc_amount
      debt_amount := amm.debt_amount + btc_amount * amm.btc_price
      lusdt_reserve := amm.lusdt_reserve + btc_amount * amm.btc_price
      yb_supply := amm.yb_supply + btc_amount
      yb_holders := fun a =>
        if a = depositor then amm.yb_holders a + btc_amount else amm.yb_holders a }

def deposit_btc_for_yb (amm : YieldBasisAMM) (btc_amount : ℚ) (depositor : String) :
    YieldBasisAMM × Except AmmErr ℚ :=
  if btc_amount ≤ 0 then (amm, Except.error AmmErr.invalidAmount)
  else if (get_state (deposit_applied amm btc_amount depositor)).is_healthy then
    (deposit_applied amm btc_amount depositor, Except.ok btc_amount)
  else (deposit_applied amm btc_amount depositor, Except.error AmmErr.covenantViolation)

/-- Method `complete_flashloan`.  The source pops the loan from
`active_loans` *before* validating the repayment, so on an insufficient
repayment the loan entry is already gone; the returned pool reproduces
this.  Stored loans always carry one of the two pool assets (invariant from
`prepare_flashloan`), matching the two-key `accumulated_fees` dict.
`remove_loan` is the `active_loans.pop(loan_id)` step. -/
def remove_loan (amm : YieldBasisAMM) (loan_id : String) : YieldBasisAMM :=
  { amm with
      active_loans := fun k => if k = loan_id then none else amm.active_loans k }

def complete_flashloan (amm : YieldBasisAMM) (loan_id : String) (repaid : ℚ) :
    YieldBasisAMM × Except AmmErr ℚ :=
  match amm.active_loans loan_id with
  | none => (amm, Except.error (AmmErr.unknownLoan loan_id))
  | some terms =>
    if repaid < terms.repay_amount then
      (remove_loan amm loan_id, Except.error AmmErr.insufficientRepayment)
    else if terms.borrow_asset = "LBTC" then
      ({ remove_loan amm loan_id with
          accumulated_fees_lbtc := amm.accumulated_fees_lbtc + terms.fee_amount },
       Except.ok terms.fee_amount)
    else
      ({ remove_loan amm loan_id with
          accumulated_fees_lusdt := amm.accumulated_fees_lusdt + terms.fee_amount },
       Except.ok terms.fee_amount)

/-- Method `rebalance_via_flashloan`.  For `add_debt` / `remove_debt` the
source first applies the debt and USDT-reserve deltas, then checks
`is_healthy`; on a violation it raises with the mutated state left behind,
which the returned pool reproduces. -/
def rebalance_via_flashloan (amm : YieldBasisAMM) (adjustment : ℚ) (action : String) :
    YieldBasisAMM × Except AmmErr Unit :=
  if action = "add_debt" then
    let amm1 : YieldBasisAMM :=
      { amm with
          debt_amount := amm.debt_amount + adjustment
          lusdt_reserve := amm.lusdt_reserve + adjustment }
    if (get_state amm1).is_healthy then (amm1, Except.ok ())
    else (amm1, Except.error AmmErr.covenantViolation)
  else if action = "remove_debt" then
    if amm.lusdt_reserve < adjustment then (amm, Except.error AmmErr.insufficientUsdt)
    else
      let amm1 : YieldBasisAMM :=
        { amm with
            debt_amount := amm.debt_amount - adjustment
            lusdt_reserve := amm.lusdt_reserve - adjustment }
      if (get_state amm1).is_healthy then (amm1, Except.ok ())
      else (amm1, Except.error AmmErr.covenantViolation)
  else (amm, Except.error (AmmErr.unknownAction action))

/-- Method `detect_rebalance_opportunity`: target ratio `0.50`, deviation
threshold `0.05`, profit estimate `0.005` of the adjustment. -/
def detect_rebalance_opportunity (amm : YieldBasisAMM) : Option ArbitrageOpportunity :=
  if |(get_state amm).debt_ratio - (0.50 : ℚ)| ≤ (0.05 : ℚ) then none
  else if (get_state amm).debt_ratio < (0.50 : ℚ) then
    some
      { action := "add_debt"
        current_ratio := (get_state amm).debt_ratio
        target_ratio := (0.50 : ℚ)
        debt_adjustment := |(get_state amm).pool_value_usd * (0.50 : ℚ) - (get_state amm).debt_amount|
        expected_profit :=
          |(get_state amm).pool_value_usd * (0.50 : ℚ) - (get_state amm).debt_amount| * (0.005 : ℚ)
        method := "flash_loan" }
  else
    some
      { action := "remove_debt"
        current_ratio := (get_state amm).debt_ratio
        target_ratio := (0.50 : ℚ)
        debt_adjustment := |(get_state amm).pool_value_usd * (0.50 : ℚ) - (get_state amm).debt_amount|
        expected_profit :=
          |(get_state amm).pool_value_usd * (0.50 : ℚ) - (get_state amm).debt_amount| * (0.005 : ℚ)
        method := "flash_loan" }

/-- Method `arbitrage_opportunity`: a wrapper that discards both of its
arguments and delegates to `detect_rebalance_opportunity`. -/
def arbitrage_opportunity (amm : YieldBasisAMM) (market_price tolerance : ℚ) :
    Option ArbitrageOpportunity :=
  detect_rebalance_opportunity amm

/-! Concrete pools for witnesses and counterexamples.  `poolW` reproduces
the state a pool built as `YieldBasisAMM(1.0, 30000, 30000, 30, 5)` is in
right after construction (debt = half the pool value, so debt ratio 0.50);
`lp_supply` is irrelevant to every operation below and set to 1.
`poolFee0` is the same pool with a zero swap fee, `poolLoan` carries one
outstanding flash loan of 100 LUSDt at the 5 bps flash fee. -/
def poolW : YieldBasisAMM :=
  { swap_fee := 3 / 1000
    flash_fee := 5 / 10000
    lbtc_reserve := 1
    lusdt_reserve := 30000
    debt_amount := 30000
    btc_price := 30000
    lp_supply := 1
    yb_supply := 1
    yb_holders := fun _ => 0
    accumulated_fees_lbtc := 0
    accumulated_fees_lusdt := 0
    active_loans := fun _ => none }

/-- The pool `poolW` with a zero swap fee. -/
def poolFee0 : YieldBasisAMM :=
  { poolW with swap_fee := 0 }

/-- Terms of the single outstanding loan of `poolLoan`: 100 LUSDt at the
5 bps flash fee, as `prepare_flashloan("LUSDt", 100)` would record them. -/
def loanTerms : FlashLoanTerms :=
  { loan_id := "loan1"
    borrow_asset := "LUSDt"
    borrow_amount := 100
    repay_amount := 100 + 1 / 20
    repay_asset := "LUSDt"
    fee_amount := 1 / 20
    purpose := "rebalancing" }

/-- The pool `poolW` with the loan `loanTerms` outstanding. -/
def poolLoan : YieldBasisAMM :=
  { poolW with active_loans := fun k => if k = "loan1" then some loanTerms else none }

/-- The state of `poolLoan` after a successful settlement of `loanTerms`:
the loan is removed and its fee accrued to the LUSDt fee total. -/
def poolLoanSettled : YieldBasisAMM :=
  { poolLoan with
      active_loans := fun k => if k = "loan1" then none else poolLoan.active_loans k
      accumulated_fees_lusdt := poolLoan.accumulated_fees_lusdt + 1 / 20 }

/-- A tiny pool with small reserves (1 LBTC, 2 LUSDt) and a 50% swap fee,
giving small exact rationals in witness computations. -/
def poolT : YieldBasisAMM :=
  { swap_fee := 1 / 2
    flash_fee := 5 / 10000
    lbtc_reserve := 1
    lusdt_reserve := 2
    debt_amount := 3 / 2
    btc_price := 1
    lp_supply := 1
    yb_supply := 1
    yb_holders := fun _ => 0
    accumulated_fees_lbtc := 0
    accumulated_fees_lusdt := 0
    active_loans := fun _ => none }

/-- `poolT` after swapping 2 LUSDt in: output 1/3 LBTC, fee 1 LUSDt. -/
def poolT2 : YieldBasisAMM :=
  { poolT with
      lusdt_reserve := 4
      lbtc_reserve := 2 / 3
      accumulated_fees_lusdt := 1 }

/-- The quote of the 2-LUSDt swap on `poolT`. -/
def quoteT : SwapQuote :=
  mk_swap_quote poolT "LUSDt" 2

/-- `poolT` after swapping 1 LBTC in (round-trip leg 1): output 2/3 LUSDt. -/
def poolT1 : YieldBasisAMM :=
  { poolT with
      lbtc_reserve := 2
      lusdt_reserve := 4 / 3
      accumulated_fees_lbtc := 1 / 2 }

/-- The quote of round-trip leg 1 on `poolT`. -/
def quoteU1 : SwapQuote :=
  mk_swap_quote poolT "LBTC" 1

/-- `poolT1` after swapping leg 1's 2/3 LUSDt back: output 2/5 LBTC. -/
def poolT3 : YieldBasisAMM :=
  { poolT1 with
      lusdt_reserve := 2
      lbtc_reserve := 8 / 5
      accumulated_fees_lusdt := 1 / 3 }

/-- The quote of round-trip leg 2 on `poolT1`. -/
def quoteU2 : SwapQuote :=
  mk_swap_quote poolT1 "LUSDt" quoteU1.amount_out

/-! Helper lemmas characterising the success paths of the swap methods. -/

/-- A successful `quote_swap` pins down every check of the source's success
path and the returned quote. -/
lemma quote_swap_ok {amm : YieldBasisAMM} {asset : String} {d : ℚ} {q : SwapQuote}
    (h : quote_swap amm asset d = Except.ok q) :
    0 < d ∧ (asset = "LBTC" ∨ asset = "LUSDt") ∧
      0 < reserve_in amm asset ∧ 0 < reserve_out amm asset ∧
      0 < swap_amount_out amm asset d ∧ q = mk_swap_quote amm asset d := by
  unfold quote_swap at h
  split_ifs at h with h1 h2 h3 h4 <;> try exact Except.noConfusion h
  push_neg at h1 h3 h4
  refine ⟨h1, h2, h3.1, h3.2, h4, ?_⟩
  cases h
  rfl

/-- A successful `execute_swap` is a successful quote plus the reserve and
fee mutations of the matching branch. -/
lemma execute_swap_ok {amm : YieldBasisAMM} {asset : String} {d : ℚ}
    {amm' : YieldBasisAMM} {q : SwapQuote}
    (h : execute_swap amm asset d = (amm', Except.ok q)) :
    quote_swap amm asset d = Except.ok q ∧
      ((asset = "LBTC" ∧
          amm' = { amm with
                    lbtc_reserve := amm.lbtc_reserve + q.amount_in
                    lusdt_reserve := amm.lusdt_reserve - q.amount_out
                    accumulated_fees_lbtc := amm.accumulated_fees_lbtc + q.fee_paid }) ∨
        (asset ≠ "LBTC" ∧
          amm' = { amm with
                    lusdt_reserve := amm.lusdt_reserve + q.amount_in
                    lbtc_reserve := amm.lbtc_reserve - q.amount_out
                    accumulated_fees_lusdt := amm.accumulated_fees_lusdt + q.fee_paid })) := by
  unfold execute_swap at h
  cases hq : quote_swap amm asset d with
  | error e =>
    rw [hq] at h
    simp only [Prod.mk.injEq] at h
    exact Except.noConfusion h.2
  | ok q0 =>
    rw [hq] at h
    split_ifs at h with hA
    · simp only [Prod.mk.injEq] at h
      obtain ⟨h1, h2⟩ := h
      cases h2
      exact ⟨rfl, Or.inl ⟨hA, h1.symm⟩⟩
    · simp only [Prod.mk.injEq] at h
      obtain ⟨h1, h2⟩ := h
      cases h2
      exact ⟨rfl, Or.inr ⟨hA, h1.symm⟩⟩

/-- Core constant-product algebra: selling `d` into the `x` side while only
`a ≤ d` (the fee-reduced amount) enters the price formula moves the product
`x * y` up, strictly when `a < d`. -/
lemma swap_k_mono (x y d a : ℚ) (hx : 0 < x) (hy : 0 < y) (hd : 0 < d)
    (ha : 0 < a) (had : a ≤ d) :
    x * y ≤ (x + d) * (y - y * a / (x + a)) ∧
      (a < d → x * y < (x + d) * (y - y * a / (x + a))) := by
  have hxa : 0 < x + a := by linarith
  have hout : y - y * a / (x + a) = (x + d) * (x * y) / ((x + d) * (x + a)) := by
    rw [mul_div_mul_left _ _ (by linarith : x + d ≠ 0)]
    field_simp
    ring
  have hden : 0 < (x + d) * (x + a) := mul_pos (by linarith) hxa
  constructor
  · rw [hout, ← mul_div_assoc, le_div_iff₀ hden]
    nlinarith [mul_nonneg (sub_nonneg.mpr had) (mul_pos hx hy).le]
  · intro hlt
    rw [hout, ← mul_div_assoc, lt_div_iff₀ hden]
    nlinarith [mul_pos (sub_pos.mpr hlt) (mul_pos hx hy)]

/-- C2: for every pool state with both reserves strictly positive, a swap
fee in the configured range `[0, 1)`, and every swap input `execute_swap`
accepts, the constant product `reserve_a * reserve_b` does not decrease,
and strictly increases whenever the fee rate is non-zero. -/
theorem C2_invariant_nondecreasing (amm : YieldBasisAMM) (asset : String) (d : ℚ)
    (amm' : YieldBasisAMM) (q : SwapQuote)
    (hx : 0 < amm.lbtc_reserve) (hy : 0 < amm.lusdt_reserve)
    (hf0 : 0 ≤ amm.swap_fee) (hf1 : amm.swap_fee < 1)
    (h : execute_swap amm asset d = (amm', Except.ok q)) :
    invariant amm ≤ invariant amm' ∧
      (amm.swap_fee ≠ 0 → invariant amm < invariant amm') := by
  obtain ⟨hq, hbr⟩ := execute_swap_ok h
  obtain ⟨hd, hasset, hrin, hrout, hpos, hqeq⟩ := quote_swap_ok hq
  subst hqeq
  have ha : 0 < d * (1 - amm.swap_fee) := by nlinarith
  have had : d * (1 - amm.swap_fee) ≤ d := by nlinarith
  have hstrict : amm.swap_fee ≠ 0 → d * (1 - amm.swap_fee) < d := by
    intro hne
    have : 0 < amm.swap_fee := lt_of_le_of_ne hf0 (Ne.symm hne)
    nlinarith
  rcases hbr with ⟨hA, rfl⟩ | ⟨hA, rfl⟩
  · subst hA
    have hout : swap_amount_out amm "LBTC" d =
        amm.lusdt_reserve * (d * (1 - amm.swap_fee)) /
          (amm.lbtc_reserve + d * (1 - amm.swap_fee)) := by
      simp [swap_amount_out, reserve_in, reserve_out, amount_in_after_fee]
    have hk := swap_k_mono amm.lbtc_reserve amm.lusdt_reserve d
      (d * (1 - amm.swap_fee)) hx hy hd ha had
    constructor
    · simpa [invariant, mk_swap_quote, hout, mul_comm] using hk.1
    · intro hne
      simpa [invariant, mk_swap_quote, hout, mul_comm] using hk.2 (hstrict hne)
  · have hB : asset = "LUSDt" := by
      rcases hasset with h' | h'
      · exact absurd h' hA
      · exact h'
    subst hB
    have hout : swap_amount_out amm "LUSDt" d =
        amm.lbtc_reserve * (d * (1 - amm.swap_fee)) /
          (amm.lusdt_reserve + d * (1 - amm.swap_fee)) := by
      simp [swap_amount_out, reserve_in, reserve_out, amount_in_after_fee]
    have hk := swap_k_mono amm.lusdt_reserve amm.lbtc_reserve d
      (d * (1 - amm.swap_fee)) hy hx hd ha had
    constructor
    · have := hk.1
      rw [mul_comm] at this
      simpa [invariant, mk_swap_quote, hout, mul_comm] using this
    · intro hne
      have := hk.2 (hstrict hne)
      rw [mul_comm] at this
      simpa [invariant, mk_swap_quote, hout, mul_comm] using this

/-- Core round-trip algebra: selling `d` into the `x` side and then selling
the proceeds `o` back, each leg fee-reduced by the factor `1 - f`, returns
at most `d`, strictly less when `f > 0`. -/
lemma roundtrip_core (x y d f o : ℚ) (hx : 0 < x) (hy : 0 < y) (hd : 0 < d)
    (hf0 : 0 ≤ f) (hf1 : f < 1)
    (ho : o = y * (d * (1 - f)) / (x + d * (1 - f))) :
    (x + d) * (o * (1 - f)) / (y - o + o * (1 - f)) ≤ d ∧
      (0 < f → (x + d) * (o * (1 - f)) / (y - o + o * (1 - f)) < d) := by
  have hg0 : 0 < 1 - f := by linarith
  have hdg : 0 < d * (1 - f) := mul_pos hd hg0
  have hden : 0 < x + d * (1 - f) := by linarith
  have key : o * (x + d * (1 - f)) = y * (d * (1 - f)) := by
    rw [ho]
    field_simp
  have hopos : 0 < o := by
    rw [ho]
    positivity
  have holty : o < y := by
    rw [ho, div_lt_iff₀ hden]
    nlinarith
  have hden2 : 0 < y - o + o * (1 - f) := by nlinarith
  have hE : ((x + d) * (o * (1 - f)) - d * (y - o + o * (1 - f))) * (x + d * (1 - f)) =
      x * y * d * ((1 - f) ^ 2 - 1) := by
    linear_combination ((1 - f) * x + d) * key
  constructor
  · have hg2 : (1 - f) ^ 2 - 1 ≤ 0 := by nlinarith
    have hprod : x * y * d * ((1 - f) ^ 2 - 1) ≤ 0 :=
      mul_nonpos_of_nonneg_of_nonpos (by positivity) hg2
    rw [div_le_iff₀ hden2]
    nlinarith [hE, hprod, hden]
  · intro hf
    have hg2 : (1 - f) ^ 2 - 1 < 0 := by nlinarith
    have hprod : x * y * d * ((1 - f) ^ 2 - 1) < 0 :=
      mul_neg_of_pos_of_neg (by positivity) hg2
    rw [div_lt_iff₀ hden2]
    nlinarith [hE, hprod, hden]

/-- C7: swapping `d` of one asset for the other and then swapping the
resulting output straight back yields a final output at most `d`, strictly
less whenever the fee rate is non-zero. -/
theorem C7_roundtrip_bound (amm : YieldBasisAMM) (asset : String) (d : ℚ)
    (amm1 amm2 : YieldBasisAMM) (q1 q2 : SwapQuote)
    (hx : 0 < amm.lbtc_reserve) (hy : 0 < amm.lusdt_reserve)
    (hf0 : 0 ≤ amm.swap_fee) (hf1 : amm.swap_fee < 1)
    (h1 : execute_swap amm asset d = (amm1, Except.ok q1))
    (h2 : execute_swap amm1 (other_asset asset) q1.amount_out = (amm2, Except.ok q2)) :
    q2.amount_out ≤ d ∧ (amm.swap_fee ≠ 0 → q2.amount_out < d) := by
  obtain ⟨hq1, hbr1⟩ := execute_swap_ok h1
  obtain ⟨hd, hasset, hri1, hro1, hpos1, hq1eq⟩ := quote_swap_ok hq1
  subst hq1eq
  obtain ⟨hq2, hbr2⟩ := execute_swap_ok h2
  obtain ⟨hd2, hasset2, hri2, hro2, hpos2, hq2eq⟩ := quote_swap_ok hq2
  subst hq2eq
  have hfne : amm.swap_fee ≠ 0 → 0 < amm.swap_fee := fun hne =>
    lt_of_le_of_ne hf0 (Ne.symm hne)
  rcases hasset with hA | hA
  · subst hA
    rcases hbr1 with ⟨_, rfl⟩ | ⟨hA', _⟩
    · have ho : (mk_swap_quote amm "LBTC" d).amount_out =
          amm.lusdt_reserve * (d * (1 - amm.swap_fee)) /
            (amm.lbtc_reserve + d * (1 - amm.swap_fee)) := by
        simp [mk_swap_quote, swap_amount_out, reserve_in, reserve_out, amount_in_after_fee]
      have hcore := roundtrip_core amm.lbtc_reserve amm.lusdt_reserve d amm.swap_fee
        ((mk_swap_quote amm "LBTC" d).amount_out) hx hy hd hf0 hf1 ho
      constructor
      · have := hcore.1
        simpa [mk_swap_quote, swap_amount_out, reserve_in, reserve_out,
          amount_in_after_fee, other_asset, sub_add_eq_add_sub] using this
      · intro hne
        have := hcore.2 (hfne hne)
        simpa [mk_swap_quote, swap_amount_out, reserve_in, reserve_out,
          amount_in_after_fee, other_asset, sub_add_eq_add_sub] using this
    · exact absurd rfl hA'
  · subst hA
    rcases hbr1 with ⟨hA', _⟩ | ⟨_, rfl⟩
    · exact absurd hA' (by decide)
    · have ho : (mk_swap_quote amm "LUSDt" d).amount_out =
          amm.lbtc_reserve * (d * (1 - amm.swap_fee)) /
            (amm.lusdt_reserve + d * (1 - amm.swap_fee)) := by
        simp [mk_swap_quote, swap_amount_out, reserve_in, reserve_out, amount_in_after_fee]
      have hcore := roundtrip_core amm.lusdt_reserve amm.lbtc_reserve d amm.swap_fee
        ((mk_swap_quote amm "LUSDt" d).amount_out) hy hx hd hf0 hf1 ho
      constructor
      · have := hcore.1
        simpa [mk_swap_quote, swap_amount_out, reserve_in, reserve_out,
          amount_in_after_fee, other_asset, sub_add_eq_add_sub] using this
      · intro hne
        have := hcore.2 (hfne hne)
        simpa [mk_swap_quote, swap_amount_out, reserve_in, reserve_out,
          amount_in_after_fee, other_asset, sub_add_eq_add_sub] using this

/-- The Boolean health check unfolded to the safety band. -/
lemma is_healthy_iff (s : PoolState) :
    s.is_healthy = true ↔ ((0.0625 : ℚ) ≤ s.debt_ratio ∧ s.debt_ratio ≤ (0.53125 : ℚ)) := by
  simp [PoolState.is_healthy]

/-- C4: `quote_swap` is pure (it is a function of the pool, returning no
mutated pool), succeeds exactly when the amount is positive, the asset is
one of the two pool assets, both reserves are positive and the computed
output is positive — in which case the returned output is the fee-adjusted
constant-product formula — and otherwise fails with the error of the first
violated check, in source order. -/
theorem C4_quote_swap_spec (amm : YieldBasisAMM) (asset : String) (d : ℚ) :
    (d ≤ 0 → quote_swap amm asset d = Except.error AmmErr.invalidAmount) ∧
      (0 < d → ¬(asset = "LBTC" ∨ asset = "LUSDt") →
        quote_swap amm asset d = Except.error (AmmErr.unknownAsset asset)) ∧
      (0 < d → (asset = "LBTC" ∨ asset = "LUSDt") →
        (reserve_in amm asset ≤ 0 ∨ reserve_out amm asset ≤ 0) →
        quote_swap amm asset d = Except.error AmmErr.emptyPool) ∧
      (0 < d → (asset = "LBTC" ∨ asset = "LUSDt") →
        0 < reserve_in amm asset → 0 < reserve_out amm asset →
        swap_amount_out amm asset d ≤ 0 →
        quote_swap amm asset d = Except.error AmmErr.zeroOutput) ∧
      (0 < d → (asset = "LBTC" ∨ asset = "LUSDt") →
        0 < reserve_in amm asset → 0 < reserve_out amm asset →
        0 < swap_amount_out amm asset d →
        quote_swap amm asset d = Except.ok (mk_swap_quote amm asset d) ∧
          (mk_swap_quote amm asset d).amount_out =
            reserve_out amm asset * (d * (1 - amm.swap_fee)) /
              (reserve_in amm asset + d * (1 - amm.swap_fee))) := by
  refine ⟨?_, ?_, ?_, ?_, ?_⟩
  · intro h0
    rw [quote_swap, if_pos h0]
  · intro h0 hun
    rw [quote_swap, if_neg (not_le.mpr h0), if_neg hun]
  · intro h0 hk hres
    rw [quote_swap, if_neg (not_le.mpr h0), if_pos hk, if_pos hres]
  · intro h0 hk hri hro hz
    rw [quote_swap, if_neg (not_le.mpr h0), if_pos hk,
      if_neg (by push_neg; exact ⟨hri, hro⟩), if_pos hz]
  · intro h0 hk hri hro hz
    constructor
    · rw [quote_swap, if_neg (not_le.mpr h0), if_pos hk,
        if_neg (by push_neg; exact ⟨hri, hro⟩), if_neg (not_le.mpr hz)]
    · simp [mk_swap_quote, swap_amount_out, amount_in_after_fee]

/-- C6: once `complete_flashloan` has succeeded for a loan id, a second
call with the same id fails with `UnknownLoan` and leaves the pool
unchanged — single-use semantics, no replay. -/
theorem C6_flashloan_single_use (amm : YieldBasisAMM) (loan_id : String) (repaid : ℚ)
    (amm' : YieldBasisAMM) (fee : ℚ)
    (h : complete_flashloan amm loan_id repaid = (amm', Except.ok fee)) (repaid2 : ℚ) :
    complete_flashloan amm' loan_id repaid2 =
      (amm', Except.error (AmmErr.unknownLoan loan_id)) := by
  have hgone : amm'.active_loans loan_id = none := by
    unfold complete_flashloan at h
    cases hl : amm.active_loans loan_id with
    | none =>
      rw [hl] at h
      simp only [Prod.mk.injEq] at h
      exact Except.noConfusion h.2
    | some terms =>
      rw [hl] at h
      dsimp only at h
      split_ifs at h with hr hA
      · simp only [Prod.mk.injEq] at h
        exact Except.noConfusion h.2
      · simp only [Prod.mk.injEq] at h
        rw [← h.1]
        simp [remove_loan]
      · simp only [Prod.mk.injEq] at h
        rw [← h.1]
        simp [remove_loan]
  unfold complete_flashloan
  rw [hgone]

/-- C8: `arbitrage_opportunity` ignores both of its arguments; for any two
argument pairs it returns the same value, namely
`detect_rebalance_opportunity`, which is `none` exactly when the debt ratio
deviates from the hardcoded target `0.50` by at most the hardcoded
threshold `0.05`. -/
theorem C8_arbitrage_ignores_arguments (amm : YieldBasisAMM) (p1 t1 p2 t2 : ℚ) :
    arbitrage_opportunity amm p1 t1 = arbitrage_opportunity amm p2 t2 ∧
      arbitrage_opportunity amm p1 t1 = detect_rebalance_opportunity amm ∧
      (arbitrage_opportunity amm p1 t1 = none ↔
        |(get_state amm).debt_ratio - (0.50 : ℚ)| ≤ (0.05 : ℚ)) := by
  refine ⟨rfl, rfl, ?_⟩
  unfold arbitrage_opportunity detect_rebalance_opportunity
  split_ifs with hdev hlt
  · simp [hdev]
  · simp [hdev]
  · simp [hdev]

/-- C9: a successful `execute_swap` adds the full input amount (fee not
deducted) to the input-asset reserve, subtracts the quoted output from the
output-asset reserve, accrues `amount_in * swap_fee` to the input asset's
fee total, and leaves debt, oracle price, LP supply and ybBTC supply
unchanged. -/
theorem C9_execute_swap_frame (amm : YieldBasisAMM) (asset : String) (d : ℚ)
    (amm' : YieldBasisAMM) (q : SwapQuote)
    (h : execute_swap amm asset d = (amm', Except.ok q)) :
    reserve_in amm' asset = reserve_in amm asset + d ∧
      reserve_out amm' asset = reserve_out amm asset - q.amount_out ∧
      (asset = "LBTC" →
        amm'.accumulated_fees_lbtc = amm.accumulated_fees_lbtc + d * amm.swap_fee) ∧
      (asset = "LUSDt" →
        amm'.accumulated_fees_lusdt = amm.accumulated_fees_lusdt + d * amm.swap_fee) ∧
      amm'.debt_amount = amm.debt_amount ∧
      amm'.btc_price = amm.btc_price ∧
      amm'.lp_supply = amm.lp_supply ∧
      amm'.yb_supply = amm.yb_supply := by
  obtain ⟨hq, hbr⟩ := execute_swap_ok h
  obtain ⟨hd, hasset, hri, hro, hpos, hqeq⟩ := quote_swap_ok hq
  subst hqeq
  rcases hbr with ⟨hA, rfl⟩ | ⟨hA, rfl⟩
  · subst hA
    refine ⟨?_, ?_, ?_, ?_, rfl, rfl, rfl, rfl⟩
    · simp [reserve_in, mk_swap_quote]
    · simp [reserve_out, mk_swap_quote]
    · intro _
      simp [mk_swap_quote]
    · intro hB
      exact absurd hB (by decide)
  · have hB : asset = "LUSDt" := by
      rcases hasset with h' | h'
      · exact absurd h' hA
      · exact h'
    subst hB
    refine ⟨?_, ?_, ?_, ?_, rfl, rfl, rfl, rfl⟩
    · simp [reserve_in, mk_swap_quote]
    · simp [reserve_out, mk_swap_quote]
    · intro hB
      exact absurd hB (by decide)
    · intro _
      simp [mk_swap_quote]

/-- C10: for a positive deposit, `deposit_btc_for_yb` adds the BTC amount
to the BTC reserve, adds its USD value at the oracle price to both debt
and the USDT reserve, mints the same number of ybBTC tokens, and when the
resulting debt ratio leaves the safety band it fails with the covenant
error while the mutations remain applied. -/
theorem C10_deposit_spec (amm : YieldBasisAMM) (b : ℚ) (dep : String) (hb : 0 < b) :
    (deposit_btc_for_yb amm b dep).1.lbtc_reserve = amm.lbtc_reserve + b ∧
      (deposit_btc_for_yb amm b dep).1.debt_amount = amm.debt_amount + b * amm.btc_price ∧
      (deposit_btc_for_yb amm b dep).1.lusdt_reserve = amm.lusdt_reserve + b * amm.btc_price ∧
      (deposit_btc_for_yb amm b dep).1.yb_supply = amm.yb_supply + b ∧
      ((get_state (deposit_btc_for_yb amm b dep).1).is_healthy = true →
        (deposit_btc_for_yb amm b dep).2 = Except.ok b) ∧
      (¬((0.0625 : ℚ) ≤ (get_state (deposit_btc_for_yb amm b dep).1).debt_ratio ∧
          (get_state (deposit_btc_for_yb amm b dep).1).debt_ratio ≤ (0.53125 : ℚ)) →
        (deposit_btc_for_yb amm b dep).2 = Except.error AmmErr.covenantViolation) := by
  have hb' : ¬ b ≤ 0 := not_le.mpr hb
  unfold deposit_btc_for_yb
  rw [if_neg hb']
  split_ifs with hh
  · exact ⟨by simp [deposit_applied], by simp [deposit_applied], by simp [deposit_applied],
      by simp [deposit_applied], fun _ => rfl,
      fun hband => absurd ((is_healthy_iff _).mp hh) hband⟩
  · exact ⟨by simp [deposit_applied], by simp [deposit_applied], by simp [deposit_applied],
      by simp [deposit_applied], fun hcon => absurd hcon hh, fun _ => rfl⟩


/-! Evaluation lemmas for the concrete pools, used by the closed theorems
and witnesses below. -/

lemma lusdt_ne_lbtc : (("LUSDt" : String) = "LBTC") ↔ False :=
  iff_false_intro (by decide)

lemma active_loan_lookup : poolLoan.active_loans "loan1" = some loanTerms := by
  simp [poolLoan]

lemma evalLoanSettle :
    complete_flashloan poolLoan "loan1" (100 + 1 / 20) =
      (poolLoanSettled, Except.ok (1 / 20)) := by
  unfold complete_flashloan
  rw [active_loan_lookup]
  dsimp only
  rw [if_neg (by norm_num [loanTerms] : ¬ (100 + 1 / 20 : ℚ) < loanTerms.repay_amount)]
  rw [if_neg (by simp [loanTerms] : ¬ loanTerms.borrow_asset = "LBTC")]
  simp [remove_loan, poolLoanSettled, loanTerms]

lemma evalT : execute_swap poolT "LUSDt" 2 = (poolT2, Except.ok quoteT) := by
  have hq : quote_swap poolT "LUSDt" 2 = Except.ok quoteT := by
    norm_num [quote_swap, quoteT, poolT, reserve_in, reserve_out, swap_amount_out,
      amount_in_after_fee, lusdt_ne_lbtc]
  unfold execute_swap
  rw [hq]
  dsimp only
  norm_num [quoteT, mk_swap_quote, swap_amount_out, reserve_in, reserve_out,
    amount_in_after_fee, swap_new_lbtc, swap_new_lusdt, swap_new_price, other_asset,
    poolT, poolT2, lusdt_ne_lbtc]

lemma evalU1 : execute_swap poolT "LBTC" 1 = (poolT1, Except.ok quoteU1) := by
  have hq : quote_swap poolT "LBTC" 1 = Except.ok quoteU1 := by
    norm_num [quote_swap, quoteU1, poolT, reserve_in, reserve_out, swap_amount_out,
      amount_in_after_fee]
  unfold execute_swap
  rw [hq]
  dsimp only
  norm_num [quoteU1, mk_swap_quote, swap_amount_out, reserve_in, reserve_out,
    amount_in_after_fee, swap_new_lbtc, swap_new_lusdt, swap_new_price, other_asset,
    poolT, poolT1]

lemma evalU2 :
    execute_swap poolT1 "LUSDt" quoteU1.amount_out = (poolT3, Except.ok quoteU2) := by
  have hq : quote_swap poolT1 "LUSDt" quoteU1.amount_out = Except.ok quoteU2 := by
    norm_num [quote_swap, quoteU1, quoteU2, poolT, poolT1, reserve_in, reserve_out,
      swap_amount_out, amount_in_after_fee, mk_swap_quote, lusdt_ne_lbtc]
  unfold execute_swap
  rw [hq]
  dsimp only
  norm_num [quoteU1, quoteU2, mk_swap_quote, swap_amount_out, reserve_in, reserve_out,
    amount_in_after_fee, swap_new_lbtc, swap_new_lusdt, swap_new_price, other_asset,
    poolT, poolT1, poolT3, lusdt_ne_lbtc]

/-- C1 (code-bug evidence): on the healthy concrete pool `poolW`,
`rebalance_via_flashloan 40000 "add_debt"` pushes the debt ratio to 0.7,
outside the safety band `[0.0625, 0.53125]`, and the call does raise the
covenant error — but the returned ledger keeps the mutated debt and USDT
reserve: the mutation is not rolled back as the claim requires. -/
theorem C1_rebalance_not_rolled_back :
    (rebalance_via_flashloan poolW 40000 "add_debt").2 =
        Except.error AmmErr.covenantViolation ∧
      (get_state (rebalance_via_flashloan poolW 40000 "add_debt").1).debt_ratio = 7 / 10 ∧
      (rebalance_via_flashloan poolW 40000 "add_debt").1.debt_amount = 70000 ∧
      poolW.debt_amount = 30000 ∧
      (rebalance_via_flashloan poolW 40000 "add_debt").1.lusdt_reserve = 70000 ∧
      poolW.lusdt_reserve = 30000 := by
  refine ⟨?_, ?_, ?_, ?_, ?_, ?_⟩ <;>
    norm_num [rebalance_via_flashloan, poolW, get_state, PoolState.is_healthy,
      PoolState.debt_ratio, PoolState.pool_value_usd]

/-- C5 (code-bug evidence): settling the outstanding loan of `poolLoan`
with an insufficient repayment fails with `InsufficientRepayment` and
leaves the accrued fees untouched, but the loan entry has already been
popped from the outstanding-loan map — the ledger is not left unchanged as
the claim requires. -/
theorem C5_settle_failure_drops_loan :
    (complete_flashloan poolLoan "loan1" 50).2 =
        Except.error AmmErr.insufficientRepayment ∧
      poolLoan.active_loans "loan1" = some loanTerms ∧
      (complete_flashloan poolLoan "loan1" 50).1.active_loans "loan1" = none ∧
      (complete_flashloan poolLoan "loan1" 50).1.accumulated_fees_lusdt =
        poolLoan.accumulated_fees_lusdt ∧
      (complete_flashloan poolLoan "loan1" 50).1.accumulated_fees_lbtc =
        poolLoan.accumulated_fees_lbtc := by
  refine ⟨?_, ?_, ?_, ?_, ?_⟩ <;>
    norm_num [complete_flashloan, poolLoan, loanTerms, remove_loan, poolW, lusdt_ne_lbtc]

/-- C3 counterexample: `poolFee0` sits at pool price 30000 with debt ratio
exactly 0.50.  The target price 120000 is off the pool price by far more
than the tolerance 1/100, and an exact positive trade exists — selling
30000 LUSDt moves the post-trade marginal price to exactly 120000, as the
accepted quote shows — yet `arbitrage_opportunity`, the code's entry point
for the claimed solver, returns `none` rather than any input amount. -/
theorem C3_counterexample :
    price poolFee0 = 30000 ∧
      quote_swap poolFee0 "LUSDt" 30000 =
        Except.ok (mk_swap_quote poolFee0 "LUSDt" 30000) ∧
      (mk_swap_quote poolFee0 "LUSDt" 30000).price_after = 120000 ∧
      arbitrage_opportunity poolFee0 120000 (1 / 100) = none := by
  refine ⟨?_, ?_, ?_, ?_⟩ <;>
    norm_num [price, quote_swap, mk_swap_quote, swap_amount_out, swap_new_lbtc,
      swap_new_lusdt, swap_new_price, reserve_in, reserve_out, amount_in_after_fee,
      other_asset, arbitrage_opportunity, detect_rebalance_opportunity, get_state,
      PoolState.debt_ratio, PoolState.pool_value_usd, poolFee0, poolW, lusdt_ne_lbtc]

/-- C3 amended: `arbitrage_opportunity` ignores its target-price and
tolerance arguments and returns `detect_rebalance_opportunity`'s debt
recommendation instead; in particular, whenever the debt ratio is within
0.05 of 0.50 it returns `none` regardless of how far the pool price is
from the target — it never computes a trade amount toward the target
price. -/
theorem C3_amended_no_price_solver (amm : YieldBasisAMM) (target_price tolerance : ℚ)
    (hnear : |(get_state amm).debt_ratio - (0.50 : ℚ)| ≤ (0.05 : ℚ)) :
    arbitrage_opportunity amm target_price tolerance = none ∧
      arbitrage_opportunity amm target_price tolerance =
        detect_rebalance_opportunity amm := by
  constructor
  · unfold arbitrage_opportunity detect_rebalance_opportunity
    rw [if_pos hnear]
  · rfl

/-- C3 amended, witness at `poolFee0` and target price 120000. -/
theorem C3_amended_witness :
    |(get_state poolFee0).debt_ratio - (0.50 : ℚ)| ≤ (0.05 : ℚ) ∧
      arbitrage_opportunity poolFee0 120000 (1 / 100) = none :=
  have hnear : |(get_state poolFee0).debt_ratio - (0.50 : ℚ)| ≤ (0.05 : ℚ) := by
    norm_num [get_state, PoolState.debt_ratio, PoolState.pool_value_usd, poolFee0, poolW]
  ⟨hnear, (C3_amended_no_price_solver poolFee0 120000 (1 / 100) hnear).1⟩

/-- C2 witness: the 2-LUSDt swap on `poolT` (fee 1/2) strictly grows the
constant product. -/
theorem C2_witness :
    invariant poolT ≤ invariant poolT2 ∧ invariant poolT < invariant poolT2 :=
  ⟨(C2_invariant_nondecreasing poolT "LUSDt" 2 poolT2 quoteT (by norm_num [poolT])
      (by norm_num [poolT]) (by norm_num [poolT]) (by norm_num [poolT]) evalT).1,
    (C2_invariant_nondecreasing poolT "LUSDt" 2 poolT2 quoteT (by norm_num [poolT])
      (by norm_num [poolT]) (by norm_num [poolT]) (by norm_num [poolT]) evalT).2
      (by norm_num [poolT])⟩

/-- C4 witness: the success branch at `poolT`, asset LBTC, amount 1. -/
theorem C4_witness :
    quote_swap poolT "LBTC" 1 = Except.ok (mk_swap_quote poolT "LBTC" 1) :=
  ((C4_quote_swap_spec poolT "LBTC" 1).2.2.2.2 (by norm_num) (Or.inl rfl)
    (by norm_num [reserve_in, poolT]) (by norm_num [reserve_out, poolT])
    (by norm_num [swap_amount_out, reserve_in, reserve_out, amount_in_after_fee,
      poolT])).1

/-- C6 witness: settling `poolLoan`'s loan in full succeeds, and a second
settlement of the same id fails with `UnknownLoan`. -/
theorem C6_witness :
    complete_flashloan poolLoanSettled "loan1" (100 + 1 / 20) =
      (poolLoanSettled, Except.error (AmmErr.unknownLoan "loan1")) :=
  C6_flashloan_single_use poolLoan "loan1" (100 + 1 / 20) poolLoanSettled (1 / 20)
    evalLoanSettle (100 + 1 / 20)

/-- C7 witness: the concrete 1-LBTC round trip on `poolT` (fee 1/2) returns
2/5, strictly less than the 1 LBTC put in. -/
theorem C7_witness :
    quoteU2.amount_out ≤ 1 ∧ quoteU2.amount_out < 1 :=
  ⟨(C7_roundtrip_bound poolT "LBTC" 1 poolT1 poolT3 quoteU1 quoteU2 (by norm_num [poolT])
      (by norm_num [poolT]) (by norm_num [poolT]) (by norm_num [poolT]) evalU1 evalU2).1,
    (C7_roundtrip_bound poolT "LBTC" 1 poolT1 poolT3 quoteU1 quoteU2 (by norm_num [poolT])
      (by norm_num [poolT]) (by norm_num [poolT]) (by norm_num [poolT]) evalU1 evalU2).2
      (by norm_num [poolT])⟩

/-- C8 witness: two distinct argument pairs on `poolW` give the same
result, equal to `detect_rebalance_opportunity`. -/
theorem C8_witness :
    arbitrage_opportunity poolW 1 2 = arbitrage_opportunity poolW 3 4 ∧
      arbitrage_opportunity poolW 1 2 = detect_rebalance_opportunity poolW :=
  ⟨(C8_arbitrage_ignores_arguments poolW 1 2 3 4).1,
    (C8_arbitrage_ignores_arguments poolW 1 2 3 4).2.1⟩

/-- C9 witness: the 2-LUSDt swap on `poolT` adds the full 2 to the USDT
reserve, accrues `2 * swap_fee = 1` in USDT fees, and leaves the debt
unchanged. -/
theorem C9_witness :
    reserve_in poolT2 "LUSDt" = reserve_in poolT "LUSDt" + 2 ∧
      poolT2.debt_amount = poolT.debt_amount ∧
      poolT2.accumulated_fees_lusdt = poolT.accumulated_fees_lusdt + 2 * poolT.swap_fee :=
  ⟨(C9_execute_swap_frame poolT "LUSDt" 2 poolT2 quoteT evalT).1,
    (C9_execute_swap_frame poolT "LUSDt" 2 poolT2 quoteT evalT).2.2.2.2.1,
    (C9_execute_swap_frame poolT "LUSDt" 2 poolT2 quoteT evalT).2.2.2.1 rfl⟩

/-- C10 witness: depositing 1 BTC into the healthy pool `poolW` applies the
claimed mutations and succeeds. -/
theorem C10_witness :
    (deposit_btc_for_yb poolW 1 "alice").1.lbtc_reserve = poolW.lbtc_reserve + 1 ∧
      (deposit_btc_for_yb poolW 1 "alice").1.debt_amount =
        poolW.debt_amount + 1 * poolW.btc_price ∧
      (deposit_btc_for_yb poolW 1 "alice").2 = Except.ok 1 :=
  ⟨(C10_deposit_spec poolW 1 "alice" (by norm_num)).1,
    (C10_deposit_spec poolW 1 "alice" (by norm_num)).2.1,
    (C10_deposit_spec poolW 1 "alice" (by norm_num)).2.2.2.2.1
      (by norm_num [deposit_btc_for_yb, deposit_applied, get_state, PoolState.is_healthy,
        PoolState.debt_ratio, PoolState.pool_value_usd, poolW])⟩

end Kupera
